import Mathlib

/-!
Shallow embedding of the Qwik deferred-work scheduler
(`packages/qwik/src/core/shared/qrl/qrl-class.ts`, scheduler section:
`ChoreType`, `Chore`, `choreComparator`, `sortedFindIndex`, `sortedInsert`,
`choreUpdate`, `vNodeAlreadyDeleted`, `createScheduler`'s `schedule`,
`drainUpTo` and `executeChore`).

External collaborators that are not part of the scheduler source
(`vnode_documentPosition`, the executors `runTask` / `runResource` /
`executeComponent` / `vnode_diff`, the QRL resolver, and the journal) are
modelled as parameters of an `Env` record, exactly at their interface
boundary.  Mutable JS objects are modelled by explicit state passing:
per-chore mutable fields (`$executed$`, `$returnValue$`) live in a map of
the scheduler state keyed by the chore's identity (`cid`, which also
stands for the chore's `$promise$`/`$resolve$` pair).
-/

namespace Qwik

/-- `ChoreType` enum from the source.  The numeric codes reproduce the
bit-encoded values (`MACRO` mask `0xF0`, `MICRO` mask `0x0F`). -/
inductive ChoreType where
  | QRL_RESOLVE
  | RESOURCE
  | TASK
  | NODE_DIFF
  | NODE_PROP
  | COMPONENT_SSR
  | COMPONENT
  | RECOMPUTE_AND_SCHEDULE_EFFECTS
  | JOURNAL_FLUSH
  | VISIBLE
  | CLEANUP_VISIBLE
  | WAIT_FOR_ALL
deriving DecidableEq, Repr, Fintype

/-- Numeric code of each `ChoreType`, as in the source enum. -/
def ChoreType.code : ChoreType → Nat
  | .QRL_RESOLVE => 0x01
  | .RESOURCE => 0x02
  | .TASK => 0x03
  | .NODE_DIFF => 0x04
  | .NODE_PROP => 0x05
  | .COMPONENT_SSR => 0x06
  | .COMPONENT => 0x07
  | .RECOMPUTE_AND_SCHEDULE_EFFECTS => 0x08
  | .JOURNAL_FLUSH => 0x10
  | .VISIBLE => 0x20
  | .CLEANUP_VISIBLE => 0x30
  | .WAIT_FOR_ALL => 0xFF

/-- `type & ChoreType.MACRO` (mask `0b1111_0000`), tabulated
(`macroOf_land` checks it against the mask formula). -/
def macroOf : ChoreType → Nat
  | .QRL_RESOLVE => 0x00
  | .RESOURCE => 0x00
  | .TASK => 0x00
  | .NODE_DIFF => 0x00
  | .NODE_PROP => 0x00
  | .COMPONENT_SSR => 0x00
  | .COMPONENT => 0x00
  | .RECOMPUTE_AND_SCHEDULE_EFFECTS => 0x00
  | .JOURNAL_FLUSH => 0x10
  | .VISIBLE => 0x20
  | .CLEANUP_VISIBLE => 0x30
  | .WAIT_FOR_ALL => 0xF0

/-- `type & ChoreType.MICRO` (mask `0b0000_1111`), tabulated
(`microOf_land` checks it against the mask formula). -/
def microOf : ChoreType → Nat
  | .QRL_RESOLVE => 0x01
  | .RESOURCE => 0x02
  | .TASK => 0x03
  | .NODE_DIFF => 0x04
  | .NODE_PROP => 0x05
  | .COMPONENT_SSR => 0x06
  | .COMPONENT => 0x07
  | .RECOMPUTE_AND_SCHEDULE_EFFECTS => 0x08
  | .JOURNAL_FLUSH => 0x00
  | .VISIBLE => 0x00
  | .CLEANUP_VISIBLE => 0x00
  | .WAIT_FOR_ALL => 0x0F

/-- A client-side virtual node: identity plus the `VNodeFlags.Deleted` bit
of its flags word (the only flag the scheduler reads). -/
structure VNode where
  vid : Nat
  deleted : Bool
deriving DecidableEq, Repr

/-- A chore's `$host$`: on the client a vnode (`vnode_isVNode` true), on
the server an SSR host element (`vnode_isVNode` false). -/
inductive HostElement where
  | vnode (v : VNode)
  | ssrHost (hid : Nat)
deriving DecidableEq, Repr

/-- `$idx$ : number | string` (task declaration index or property name). -/
inductive ChoreIdx where
  | num (n : Int)
  | str (s : String)
deriving DecidableEq, Repr

/-- `toNumber` from the source: strings map to `-1`. -/
def toNumber : ChoreIdx → Int
  | .num n => n
  | .str _ => -1

/-- `ChoreTarget = HostElement | QRLInternal | Signal | TargetType`; for a
`NODE_PROP` chore the target slot holds the property-name string.
Identity (`!==` in the source) is modelled by decidable equality on
numeric/string identities. -/
inductive ChoreTarget where
  | qrl (qid : Nat)
  | signal (sid : Nat)
  | node (h : HostElement)
  | str (s : String)
deriving DecidableEq, Repr

/-- The slice of a `Task` object the scheduler reads: `$index$` and
`$el$`.  (`$flags$ |= TaskFlags.DIRTY` mutates the task itself and is not
observed by any scheduler-level claim.) -/
structure Task where
  tidx : Int
  el : Option HostElement
deriving DecidableEq, Repr

/-- `$payload$`: opaque kind-specific data; only its identity matters to
the scheduler (`choreUpdate` overwrites it for `NODE_DIFF`). -/
inductive Payload where
  | null
  | taskP (t : Task)
  | val (n : Nat)
deriving DecidableEq, Repr

/-- A chore's computed `$returnValue$` (or the error identity a failing
executor raised). -/
inductive Value where
  | null
  | ok (n : Nat)
deriving DecidableEq, Repr

/-- `Chore` record.  `cid` is the chore's identity and stands for its
`$promise$`/`$resolve$` pair; the mutable fields `$executed$` and
`$returnValue$` live in the scheduler state keyed by `cid`. -/
structure Chore where
  cid : Nat
  ctype : ChoreType
  idx : ChoreIdx
  host : Option HostElement
  target : Option ChoreTarget
  payload : Payload
deriving DecidableEq, Repr

/-- Result of invoking an external executor for one chore: a synchronous
value, a not-yet-settled promise (suspension), or a thrown /rejected
error with identity `e`. -/
inductive ExecOutcome where
  | sync (v : Value)
  | async
  | throwErr (e : Nat)
deriving DecidableEq, Repr

/-- External collaborators, at their interface boundary (§6 of the
design):  `docPosition` is `vnode_documentPosition`, `rootVNode` the
container's root, `outcome` the opaque executors' behaviour per chore and
`domContainer` the `isDomContainer(container)` test. -/
structure Env where
  docPosition : VNode → VNode → Option VNode → Int
  rootVNode : Option VNode
  outcome : Chore → ExecOutcome
  domContainer : Bool

/-- Host-comparison stage of `choreComparator`: `none` means "fall
through to the micro comparison".  Faithful to the source: when both
hosts exist and differ, vnode hosts are compared by
`vnode_documentPosition` (falling through on 0), and the server case
(`else` branch) logs a warning and yields `1`. -/
def hostStep (env : Env) (a b : Chore) (rootVNode : Option VNode) : Option Int :=
  match a.host, b.host with
  | some ah, some bh =>
    if ah = bh then none
    else
      match ah, bh with
      | .vnode av, .vnode bv =>
        let hostDiff := env.docPosition av bv rootVNode
        if hostDiff = 0 then none else some hostDiff
      | _, _ => some 1
  | _, _ => none

/-- The coalescible same-kind test guarding the FIFO `return 1` at the
end of `choreComparator`. -/
def coalesciblePair (ta tb : ChoreType) : Prop :=
  (ta = .QRL_RESOLVE ∧ tb = .QRL_RESOLVE) ∨
  (ta = .NODE_PROP ∧ tb = .NODE_PROP) ∨
  (ta = .RECOMPUTE_AND_SCHEDULE_EFFECTS ∧ tb = .RECOMPUTE_AND_SCHEDULE_EFFECTS)

instance (ta tb : ChoreType) : Decidable (coalesciblePair ta tb) := by
  unfold coalesciblePair; infer_instance

/-- Micro-type / index / target stages of `choreComparator` (reached when
the macro types are equal and the host comparison fell through). -/
def microTail (a b : Chore) : Int :=
  let microTypeDiff : Int := (microOf a.ctype : Int) - (microOf b.ctype : Int)
  if microTypeDiff = 0 then
    let idxDiff : Int := toNumber a.idx - toNumber b.idx
    if idxDiff = 0 then
      if a.target ≠ b.target ∧ coalesciblePair a.ctype b.ctype then 1 else 0
    else idxDiff
  else microTypeDiff

/-- `choreComparator(a, b, rootVNode)` from the source.  Negative means
`a` runs before `b`. -/
def choreComparator (env : Env) (a b : Chore) (rootVNode : Option VNode) : Int :=
  let macroTypeDiff : Int := (macroOf a.ctype : Int) - (macroOf b.ctype : Int)
  if macroTypeDiff = 0 then
    if a.ctype = .JOURNAL_FLUSH then 0
    else
      match hostStep env a b rootVNode with
      | some d => d
      | none => microTail a b
  else macroTypeDiff

/-- `array.splice(i, 0, v)`. -/
def splice (l : List Chore) (i : Nat) (v : Chore) : List Chore :=
  l.take i ++ v :: l.drop i

/-- Binary-search loop of `sortedFindIndex`; returns the index of an
entry comparing `0`, or `~bottom = -(bottom+1)` if none is found.  The
structural `fuel` argument bounds the iteration count; since
`top - bottom` strictly decreases at every step, any `fuel ≥ top -
bottom` (the caller passes the array length) makes the fuel-exhausted
branch unreachable. -/
def sortedFindIndexLoop (env : Env) (sortedArray : List Chore) (value : Chore)
    (rootVNode : Option VNode) : Nat → Nat → Nat → Int
  | 0, bottom, _top => -((bottom : Int) + 1)
  | fuel + 1, bottom, top =>
    if bottom < top then
      let middle := bottom + (top - bottom) / 2
      let midChore := sortedArray.getD middle value
      let comp := choreComparator env value midChore rootVNode
      if comp < 0 then sortedFindIndexLoop env sortedArray value rootVNode fuel bottom middle
      else if 0 < comp then sortedFindIndexLoop env sortedArray value rootVNode fuel (middle + 1) top
      else (middle : Int)
    else -((bottom : Int) + 1)

/-- `sortedFindIndex(sortedArray, value, rootVNode)`. -/
def sortedFindIndex (env : Env) (sortedArray : List Chore) (value : Chore)
    (rootVNode : Option VNode) : Int :=
  sortedFindIndexLoop env sortedArray value rootVNode sortedArray.length 0 sortedArray.length

/-- `choreUpdate(existing, newChore)`: only a `NODE_DIFF` duplicate gets
its payload replaced by the newly scheduled payload. -/
def choreUpdate (existing newChore : Chore) : Chore :=
  if existing.ctype = .NODE_DIFF then { existing with payload := newChore.payload }
  else existing

/-- `sortedInsert(sortedArray, value, rootVNode)`: returns the chore that
ends up representing the scheduled work (the fresh one, or the merged
existing one) together with the updated queue. -/
def sortedInsert (env : Env) (sortedArray : List Chore) (value : Chore)
    (rootVNode : Option VNode) : Chore × List Chore :=
  let idx := sortedFindIndex env sortedArray value rootVNode
  if idx < 0 then
    (value, splice sortedArray (-idx - 1).toNat value)
  else
    let existing := sortedArray.getD idx.toNat value
    let updated := choreUpdate existing value
    (updated, sortedArray.set idx.toNat updated)

/-- `vNodeAlreadyDeleted(chore)`: the host exists, is a vnode, and its
flags carry `VNodeFlags.Deleted`. -/
def vNodeAlreadyDeleted (chore : Chore) : Bool :=
  match chore.host with
  | some (.vnode v) => v.deleted
  | _ => false

/-- Per-signal state read by the `RECOMPUTE_AND_SCHEDULE_EFFECTS` case of
`executeChore`: the `$forceRunEffects$` flag, the `$effects$` subscriber
list (subscriber identities; their content is opaque to the scheduler),
and `computeChanged` — the value `$computeIfNeeded$()` would return,
i.e. whether recomputation yields a changed value. -/
structure SignalState where
  forceRunEffects : Bool
  effects : List Nat
  computeChanged : Bool
deriving DecidableEq, Repr

/-- The scheduler's mutable state: the sorted `choreQueue`, the
`currentChore` reentrancy guard, the `journalFlushScheduled` flag, plus
observable effects of the external collaborators: `drainRequested`
records `scheduleDrain()` calls, `executedChores` maps a chore's `cid`
to its `$returnValue$` once `$executed$` is set (and its promise is
resolved), `errors` records `container.handleError` invocations,
`recomputes` the `$computeIfNeeded$` invocations, `notifications` the
`triggerEffects` invocations, `journalFlushCount` the `journalFlush()`
calls, `journalOps` the journal appends of `NODE_PROP` chores, and
`assertionFailures` counts failures of the `'Chore already running.'`
assertion at the top of `executeChore`. -/
structure SchedulerState where
  choreQueue : List Chore
  currentChore : Option Chore
  journalFlushScheduled : Bool
  drainRequested : Bool
  executedChores : List (Nat × Value)
  signals : List (Nat × SignalState)
  errors : List Nat
  recomputes : List Nat
  notifications : List Nat
  journalFlushCount : Nat
  journalOps : Nat
  assertionFailures : Nat
  nextId : Nat
deriving DecidableEq, Repr

/-- `chore.$executed$`. -/
def isExecuted (s : SchedulerState) (c : Chore) : Bool :=
  (s.executedChores.lookup c.cid).isSome

/-- `chore.$returnValue$` (meaningful once executed; `null` before). -/
def returnValueOf (s : SchedulerState) (c : Chore) : Value :=
  (s.executedChores.lookup c.cid).getD .null

def getSignal (s : SchedulerState) (sid : Nat) : SignalState :=
  (s.signals.lookup sid).getD ⟨false, [], false⟩

def setSignal (s : SchedulerState) (sid : Nat) (v : SignalState) : SchedulerState :=
  { s with signals := (sid, v) :: s.signals }

def setQueue (s : SchedulerState) (q : List Chore) : SchedulerState :=
  { s with choreQueue := q }

/-- The completion callback installed by `maybeThenPassError` at the end
of `executeChore`: mark the current chore executed, resolve its promise
with `value`, record `$returnValue$`, and release the reentrancy
guard. -/
def complete (s : SchedulerState) (c : Chore) (v : Value) : SchedulerState :=
  { s with executedChores := (c.cid, v) :: s.executedChores, currentChore := none }

/-- Result of `executeChore`: either the chore completed synchronously
with a value, or its executor returned a pending promise and the chore
is suspended (the reentrancy guard stays held). -/
inductive ExecResult where
  | done (v : Value) (s : SchedulerState)
  | suspendedExec (s : SchedulerState)
deriving Repr

def ExecResult.stateOf : ExecResult → SchedulerState
  | .done _ s => s
  | .suspendedExec s => s

/-- Signal identity of a recompute chore's `$target$`. -/
def targetSignal (c : Chore) : Nat :=
  match c.target with
  | some (.signal sid) => sid
  | _ => 0

/-- `executeChore(chore)` from the source.  The switch is reproduced case
by case; opaque executors are consulted through `env.outcome`.  Error
outcomes are routed to `container.handleError` and still complete the
chore (for `COMPONENT`/`COMPONENT_SSR` this is the `safeCall` error
callback visible in the source; for the remaining executors the same
error-boundary recovery is the specified contract of the external
`runTask`/`runResource`/`retryOnPromise` helpers). -/
def executeChore (env : Env) (s0 : SchedulerState) (chore : Chore) : ExecResult :=
  -- assertEqual(currentChore, null, 'Chore already running.')
  let s := if s0.currentChore.isSome
    then { s0 with assertionFailures := s0.assertionFailures + 1 }
    else s0
  let s1 := { s with currentChore := some chore }
  match chore.ctype with
  | .JOURNAL_FLUSH =>
    .done .null (complete { s1 with
      journalFlushCount := s1.journalFlushCount + 1,
      journalFlushScheduled := false } chore .null)
  | .CLEANUP_VISIBLE =>
    -- cleanupTask(task); returnValue stays null
    .done .null (complete s1 chore .null)
  | .NODE_PROP =>
    -- serializeAttribute + journal push / vnode_setAttr: one journal append
    .done .null (complete { s1 with journalOps := s1.journalOps + 1 } chore .null)
  | .WAIT_FOR_ALL =>
    -- no switch case: returnValue stays null
    .done .null (complete s1 chore .null)
  | .RECOMPUTE_AND_SCHEDULE_EFFECTS =>
    let sid := targetSignal chore
    let sig := getSignal s1 sid
    let forceRunEffects := sig.forceRunEffects
    -- target.$forceRunEffects$ = false  (before the subscriber check)
    let s2 := setSignal s1 sid { sig with forceRunEffects := false }
    if sig.effects.isEmpty then
      .done .null (complete s2 chore .null)
    else
      -- $computeIfNeeded$() is always invoked; it returns `computeChanged`
      let s3 := setSignal { s2 with recomputes := sid :: s2.recomputes } sid
        { sig with forceRunEffects := false, computeChanged := false }
      let s4 := if sig.computeChanged || forceRunEffects
        then { s3 with notifications := sid :: s3.notifications }
        else s3
      .done .null (complete s4 chore .null)
  | .RESOURCE =>
    -- returnValue = isDomContainer(container) ? null : runResource(...)
    match env.outcome chore with
    | .sync v => .done (if env.domContainer then .null else v)
        (complete s1 chore (if env.domContainer then .null else v))
    | .async => if env.domContainer
        then .done .null (complete s1 chore .null)
        else .suspendedExec s1
    | .throwErr e => .done .null (complete { s1 with errors := e :: s1.errors } chore .null)
  | _ =>
    -- COMPONENT, COMPONENT_SSR, TASK, VISIBLE, NODE_DIFF, QRL_RESOLVE:
    -- opaque executor; value, promise, or error routed to handleError
    match env.outcome chore with
    | .sync v => .done v (complete s1 chore v)
    | .async => .suspendedExec s1
    | .throwErr e => .done .null (complete { s1 with errors := e :: s1.errors } chore .null)

/-- Outcome of `drainUpTo`: the target's computed `$returnValue$`, the
target's promise (returned by the reentrancy guard), or a promise that
chains the suspended chore's settlement with a renewed `drainUpTo`. -/
inductive DrainOutcome where
  | value (v : Value)
  | futureOf (cid : Nat)
  | suspendedAt (cid : Nat)
deriving DecidableEq, Repr

/-- The `while (choreQueue.length)` loop of `drainUpTo`, with the queue
threaded explicitly (`shift` = take the head).  Returns the outcome, the
final state, and the trace of chores whose execution was started, in
order.  (The source's `if (order === null) continue` is dead code —
`choreComparator` is typed `number` and always returns one — and is
therefore not modelled.) -/
def drainLoop (env : Env) (queue : List Chore) (s : SchedulerState)
    (runUptoChore : Chore) (rootVNode : Option VNode) :
    DrainOutcome × SchedulerState × List Chore :=
  match queue with
  | [] => (.value (returnValueOf s runUptoChore), setQueue s [], [])
  | nextChore :: rest =>
    let order := choreComparator env nextChore runUptoChore rootVNode
    if 0 < order then
      -- processed all chores up to and including the given chore
      -- (the shifted `nextChore` is dropped, as in the source)
      (.value (returnValueOf s runUptoChore), setQueue s rest, [])
    else if vNodeAlreadyDeleted nextChore ∧ nextChore.ctype ≠ .CLEANUP_VISIBLE then
      -- skip chore for deleted vnode (cleanup still runs)
      drainLoop env rest s runUptoChore rootVNode
    else
      match executeChore env (setQueue s rest) nextChore with
      | .done _ s2 =>
        let r := drainLoop env rest s2 runUptoChore rootVNode
        (r.1, r.2.1, nextChore :: r.2.2)
      | .suspendedExec s2 => (.suspendedAt nextChore.cid, s2, [nextChore])

/-- `drainUpTo(runUptoChore, rootVNode)` from the source: early-outs for
an already-executed target and for the reentrancy guard, then the drain
loop. -/
def drainUpTo (env : Env) (s : SchedulerState) (runUptoChore : Chore)
    (rootVNode : Option VNode) : DrainOutcome × SchedulerState × List Chore :=
  if isExecuted s runUptoChore then (.value (returnValueOf s runUptoChore), s, [])
  else if s.currentChore.isSome then (.futureOf runUptoChore.cid, s, [])
  else drainLoop env s.choreQueue s runUptoChore rootVNode

/-- Settlement of a suspended chore's promise with value `v`: the
completion callback runs for the chore held by the reentrancy guard
(after which the source chains `drainUpTo` again). -/
def settle (s : SchedulerState) (v : Value) : SchedulerState :=
  match s.currentChore with
  | some c => complete s c v
  | none => s

/-- `hostOrTask : HostElement | Task | null`. -/
inductive HostOrTask where
  | nothing
  | host (h : HostElement)
  | task (t : Task)
deriving DecidableEq, Repr

/-- The task kinds of `schedule` (`isTask` in the source). -/
def isTaskType (t : ChoreType) : Bool :=
  t = ChoreType.TASK ∨ t = ChoreType.VISIBLE ∨ t = ChoreType.RESOURCE ∨
    t = ChoreType.CLEANUP_VISIBLE

/-- The chore literal built at the top of `schedule`. -/
def mkChore (cid : Nat) (t : ChoreType) (hostOrTask : HostOrTask)
    (targetOrQrl : Option ChoreTarget) (payload : Payload) : Chore :=
  { cid := cid
    ctype := t
    idx := if isTaskType t then
        (match hostOrTask with
         | .task tk => .num tk.tidx
         | _ => .num 0)
      else
        (match targetOrQrl with
         | some (.str s) => .str s
         | _ => .num 0)
    host := if isTaskType t then
        (match hostOrTask with
         | .task tk => tk.el
         | _ => none)
      else
        (match hostOrTask with
         | .host h => some h
         | _ => none)
    target := targetOrQrl
    payload := if isTaskType t then
        (match hostOrTask with
         | .task tk => .taskP tk
         | _ => payload)
      else payload }

/-- Result of `schedule`: the chore's promise (`runLater` kinds) or the
result of the immediate synchronous drain (terminal kinds). -/
inductive ScheduleResult where
  | future (cid : Nat)
  | drained (o : DrainOutcome)
deriving DecidableEq, Repr

/-- `schedule(type, hostOrTask, targetOrQrl, payload)` from the source.
Also returns the trace of chores executed by an immediate drain (empty
for `runLater` kinds). -/
def schedule (env : Env) (s : SchedulerState) (t : ChoreType)
    (hostOrTask : HostOrTask) (targetOrQrl : Option ChoreTarget) (payload : Payload) :
    ScheduleResult × SchedulerState × List Chore :=
  let runLater : Bool := t ≠ ChoreType.WAIT_FOR_ALL ∧ t ≠ ChoreType.COMPONENT_SSR
  let chore0 := mkChore s.nextId t hostOrTask targetOrQrl payload
  let s1 := { s with nextId := s.nextId + 1 }
  let ins := sortedInsert env s1.choreQueue chore0 env.rootVNode
  let chore := ins.1
  let s2 := setQueue s1 ins.2
  let s3 := if ¬ s2.journalFlushScheduled ∧ runLater then
      -- journalFlushScheduled = true; schedule(JOURNAL_FLUSH); scheduleDrain()
      let jf := mkChore s2.nextId .JOURNAL_FLUSH .nothing none .null
      let ins2 := sortedInsert env s2.choreQueue jf env.rootVNode
      { s2 with
        journalFlushScheduled := true
        nextId := s2.nextId + 1
        choreQueue := ins2.2
        drainRequested := true }
    else s2
  if runLater then (.future chore.cid, s3, [])
  else
    let r := drainUpTo env s3 chore env.rootVNode
    (.drained r.1, r.2.1, r.2.2)

/-- Scheduler state at `createScheduler` time, with the reactive signals
of the dependency graph injected. -/
def initialState (sigs : List (Nat × SignalState)) : SchedulerState :=
  { choreQueue := []
    currentChore := none
    journalFlushScheduled := false
    drainRequested := false
    executedChores := []
    signals := sigs
    errors := []
    recomputes := []
    notifications := []
    journalFlushCount := 0
    journalOps := 0
    assertionFailures := 0
    nextId := 0 }

/-- One scheduling request, for quantifying over arbitrary interleavings
of `schedule` calls. -/
structure SchedReq where
  t : ChoreType
  hostOrTask : HostOrTask
  targetOrQrl : Option ChoreTarget
  payload : Payload
deriving DecidableEq, Repr

def applyReq (env : Env) (s : SchedulerState) (r : SchedReq) : SchedulerState :=
  (schedule env s r.t r.hostOrTask r.targetOrQrl r.payload).2.1

def applyReqs (env : Env) (reqs : List SchedReq) (s : SchedulerState) : SchedulerState :=
  reqs.foldl (applyReq env) s

/-- A concrete environment for witnesses: every executor returns
synchronously, `vnode_documentPosition` compares vnode identities. -/
def testEnv : Env :=
  { docPosition := fun a b _ => (a.vid : Int) - (b.vid : Int)
    rootVNode := none
    outcome := fun _ => .sync .null
    domContainer := false }

/-- Iterated `schedule` of the same request. -/
def repeatSched (env : Env) (r : SchedReq) : Nat → SchedulerState → SchedulerState
  | 0, s => s
  | n + 1, s => repeatSched env r n (applyReq env s r)

/-! ### Spec-side vocabulary -/

/-- The before-flush kinds of the spec's macro phase (`macroOf = 0`). -/
def beforeFlushKind (t : ChoreType) : Bool :=
  t = ChoreType.QRL_RESOLVE ∨ t = ChoreType.RESOURCE ∨ t = ChoreType.TASK ∨
    t = ChoreType.NODE_DIFF ∨ t = ChoreType.NODE_PROP ∨ t = ChoreType.COMPONENT_SSR ∨
    t = ChoreType.COMPONENT ∨ t = ChoreType.RECOMPUTE_AND_SCHEDULE_EFFECTS

/-- The after-flush (visible-effect) kinds of the spec's macro phase. -/
def afterFlushKind (t : ChoreType) : Bool :=
  t = ChoreType.VISIBLE ∨ t = ChoreType.CLEANUP_VISIBLE

/-- Macro-phase component of a chore's ordering key. -/
def macroKey (c : Chore) : Nat := macroOf c.ctype

/-- The queue invariant behind phase ordering: macro phases appear in
non-decreasing order. -/
def macroSorted (l : List Chore) : Prop :=
  l.Pairwise (fun x y => macroKey x ≤ macroKey y)

/-- Placeholder chore used as a `getD` default. -/
def dummyChore : Chore := mkChore 0 .TASK .nothing none .null

/-- The FIFO case of `choreComparator`: both chores are of the same
coalescible kind but act on distinct targets. -/
def fifoCase (a b : Chore) : Prop :=
  a.target ≠ b.target ∧ coalesciblePair a.ctype b.ctype

instance (a b : Chore) : Decidable (fifoCase a b) := by
  unfold fifoCase; infer_instance

/-! ### Concrete instances used by claim theorems and witnesses -/

/-- Request scheduling a recompute of signal `5`. -/
def rcReq : SchedReq := ⟨.RECOMPUTE_AND_SCHEDULE_EFFECTS, .nothing, some (.signal 5), .null⟩

/-- Signal `5`: one subscriber, recompute would report a changed value. -/
def rcSig : List (Nat × SignalState) := [(5, ⟨false, [9], true⟩)]

/-- The recompute chore created by the first `rcReq` schedule. -/
def rcR0 : Chore := mkChore 0 .RECOMPUTE_AND_SCHEDULE_EFFECTS .nothing (some (.signal 5)) .null

/-- The `JOURNAL_FLUSH` chore pre-registered by the first `rcReq`
schedule. -/
def rcJF1 : Chore := mkChore 1 .JOURNAL_FLUSH .nothing none .null

/-- Scheduler state after any positive number of `rcReq` schedules: one
coalesced recompute chore, one journal-flush chore, `n` ids consumed. -/
def rcBase (n : Nat) : SchedulerState :=
  { choreQueue := [rcR0, rcJF1]
    currentChore := none
    journalFlushScheduled := true
    drainRequested := true
    executedChores := []
    signals := rcSig
    errors := []
    recomputes := []
    notifications := []
    journalFlushCount := 0
    journalOps := 0
    assertionFailures := 0
    nextId := n }

/-- A `WAIT_FOR_ALL` target chore ordering after every queued chore. -/
def wfa99 : Chore := mkChore 99 .WAIT_FOR_ALL .nothing none .null

/-- Signals 1 and 2, each subscribed and with a changed value. -/
def dupSigs : List (Nat × SignalState) := [(1, ⟨false, [9], true⟩), (2, ⟨false, [8], true⟩)]

/-- Schedule a recompute of signal `sid`. -/
def dupStep (sid : Nat) (s : SchedulerState) : SchedulerState :=
  (schedule testEnv s .RECOMPUTE_AND_SCHEDULE_EFFECTS .nothing (some (.signal sid)) .null).2.1

/-- State after scheduling recomputes of signal 1, signal 2, signal 1:
the third schedule's binary search probes the signal-2 entry, the FIFO
comparison returns 1, the search moves past the queued signal-1 entry,
and a second chore with the same Ordering Key is spliced in. -/
def dupS3 : SchedulerState := dupStep 1 (dupStep 2 (dupStep 1 (initialState dupSigs)))

/-- Host for the `NODE_PROP` duplicate-scheduling scenario. -/
def npHost : HostOrTask := .host (.vnode ⟨3, false⟩)

/-- State after scheduling `NODE_PROP` of `"title"` with payload 1. -/
def npS1 : SchedulerState :=
  (schedule testEnv (initialState []) .NODE_PROP npHost (some (.str "title")) (.val 1)).2.1

/-- State after re-scheduling the same `NODE_PROP` with payload 2. -/
def npS2 : SchedulerState :=
  (schedule testEnv npS1 .NODE_PROP npHost (some (.str "title")) (.val 2)).2.1

/-- Two recompute chores, same ordering key except for the target. -/
def rcA : Chore := mkChore 0 .RECOMPUTE_AND_SCHEDULE_EFFECTS .nothing (some (.signal 1)) .null

def rcB : Chore := mkChore 1 .RECOMPUTE_AND_SCHEDULE_EFFECTS .nothing (some (.signal 2)) .null

/-- A chore currently executing during the C5 scenario. -/
def c5run : Chore := mkChore 3 .TASK .nothing none .null

/-- An already-executed drain target for the C5 scenario. -/
def c5tgt : Chore := mkChore 7 .TASK .nothing none .null

/-- C5 scenario: a chore holds the reentrancy guard while `drainUpTo` is
invoked for a target that already executed with value `ok 3`. -/
def c5s : SchedulerState :=
  { initialState [] with currentChore := some c5run, executedChores := [(7, Value.ok 3)] }

/-- The recompute chore of the C9 counterexample. -/
def c9chore : Chore := mkChore 0 .RECOMPUTE_AND_SCHEDULE_EFFECTS .nothing (some (.signal 5)) .null

/-- C9 counterexample: recompute of signal 5 scheduled while its
force-flag is clear and recomputation would report an unchanged value. -/
def c9s1 : SchedulerState :=
  (schedule testEnv (initialState [(5, ⟨false, [9], false⟩)]) .RECOMPUTE_AND_SCHEDULE_EFFECTS
    .nothing (some (.signal 5)) .null).2.1

/-- C9 counterexample: `ComputedSignal.force()` sets `$forceRunEffects$`
after scheduling, before the drain. -/
def c9s2 : SchedulerState := setSignal c9s1 5 ⟨true, [9], false⟩

/-- The kinds whose `executeChore` case invokes an opaque external
executor that can throw (`executeComponent`, `runTask`, `runResource`,
`vnode_diff`, `qrl.resolve`). -/
def usesExecutor (t : ChoreType) : Bool :=
  t = ChoreType.COMPONENT ∨ t = ChoreType.COMPONENT_SSR ∨ t = ChoreType.TASK ∨
    t = ChoreType.VISIBLE ∨ t = ChoreType.NODE_DIFF ∨ t = ChoreType.QRL_RESOLVE ∨
    t = ChoreType.RESOURCE

/-- C6 scenario: `rcA` suspended mid-execution, a `TASK` chore queued
behind it. -/
def c6susp : SchedulerState :=
  { initialState [] with currentChore := some rcA, choreQueue := [c5tgt] }

/-- A `TASK` chore whose host vnode carries the `Deleted` flag. -/
def delTaskChore : Chore := mkChore 0 .TASK (.task ⟨0, some (.vnode ⟨4, true⟩)⟩) none .null

/-- A `CLEANUP_VISIBLE` chore whose host vnode carries the `Deleted`
flag. -/
def delCleanupChore : Chore :=
  mkChore 1 .CLEANUP_VISIBLE (.task ⟨0, some (.vnode ⟨4, true⟩)⟩) none .null

/-- C7 scenario: the queue holds one deleted-host `TASK` chore. -/
def c7s : SchedulerState := { initialState [] with choreQueue := [delTaskChore] }

/-- C7 scenario: the queue holds one deleted-host `CLEANUP_VISIBLE`
chore. -/
def c7sc : SchedulerState := { initialState [] with choreQueue := [delCleanupChore] }

/-! ### Sanity checks tying the tabulated phases to the source masks -/

theorem macroOf_land : ∀ t : ChoreType, macroOf t = t.code &&& 0xF0 := by decide

theorem microOf_land : ∀ t : ChoreType, microOf t = t.code &&& 0x0F := by decide

/-! ### Comparator lemmas -/

theorem macroOf_sixteen_eq_jf : ∀ t : ChoreType, macroOf t = 16 → t = .JOURNAL_FLUSH := by
  decide

theorem hostStep_of_host_eq (env : Env) (a b : Chore) (root : Option VNode)
    (h : a.host = b.host) : hostStep env a b root = none := by
  unfold hostStep
  rw [← h]
  rcases a.host with _ | ah
  · rfl
  · simp

theorem coalesciblePair_symm {ta tb : ChoreType} (h : coalesciblePair ta tb) :
    coalesciblePair tb ta := by
  unfold coalesciblePair at *; tauto

theorem microTail_antisymm (a b : Chore) (h : ¬ fifoCase a b) :
    microTail a b = -microTail b a := by
  unfold fifoCase at h
  unfold microTail
  by_cases h1 : ((microOf a.ctype : Int) - microOf b.ctype) = 0
  · have h1b : ((microOf b.ctype : Int) - microOf a.ctype) = 0 := by omega
    simp only [h1, h1b, if_true]
    by_cases h2 : (toNumber a.idx - toNumber b.idx) = 0
    · have h2b : toNumber b.idx - toNumber a.idx = 0 := by omega
      have hfb : ¬ (b.target ≠ a.target ∧ coalesciblePair b.ctype a.ctype) := by
        rintro ⟨hx, hy⟩
        exact h ⟨hx.symm, coalesciblePair_symm hy⟩
      simp [h2, h2b, h, hfb]
    · have h2b : ¬ (toNumber b.idx - toNumber a.idx = 0) := by omega
      simp only [h2, h2b, if_false]
      omega
  · have h1b : ¬ (((microOf b.ctype : Int) - microOf a.ctype) = 0) := by omega
    simp only [h1, h1b, if_false]
    omega

theorem choreComparator_antisymm (env : Env) (root : Option VNode) (a b : Chore)
    (hhost : a.host = b.host) (hf : ¬ fifoCase a b) :
    choreComparator env a b root = -choreComparator env b a root := by
  unfold choreComparator
  by_cases hm : ((macroOf a.ctype : Int) - macroOf b.ctype) = 0
  · have hmb : ((macroOf b.ctype : Int) - macroOf a.ctype) = 0 := by omega
    have hmk : macroOf a.ctype = macroOf b.ctype := by omega
    simp only [hm, hmb, if_true]
    by_cases ha : a.ctype = .JOURNAL_FLUSH
    · have hb : b.ctype = .JOURNAL_FLUSH := by
        apply macroOf_sixteen_eq_jf
        rw [← hmk, ha]
        decide
      simp [ha, hb]
    · have hb : b.ctype ≠ .JOURNAL_FLUSH := by
        intro hb
        exact ha (macroOf_sixteen_eq_jf a.ctype (by rw [hmk, hb]; decide))
      rw [hostStep_of_host_eq env a b root hhost, hostStep_of_host_eq env b a root hhost.symm]
      simp only [ha, hb, if_false]
      exact microTail_antisymm a b hf
  · have hmb : ¬ (((macroOf b.ctype : Int) - macroOf a.ctype) = 0) := by omega
    simp only [hm, hmb, if_false]
    omega

theorem choreComparator_ancestor_first (env : Env) (root : Option VNode) (a b : Chore)
    (av bv : VNode) (ha : a.host = some (.vnode av)) (hb : b.host = some (.vnode bv))
    (hne : av ≠ bv) (hmphase : macroOf a.ctype = macroOf b.ctype)
    (hjf : a.ctype ≠ .JOURNAL_FLUSH) (hpos : env.docPosition av bv root < 0) :
    choreComparator env a b root < 0 := by
  unfold choreComparator hostStep
  have hm : ((macroOf a.ctype : Int) - macroOf b.ctype) = 0 := by omega
  have hvne : ¬ (HostElement.vnode av = HostElement.vnode bv) := by
    simpa using hne
  have hd0 : ¬ (env.docPosition av bv root = 0) := by omega
  simp only [hm, if_true, hjf, if_false, ha, hb, hvne, hd0]
  simpa [hvne, hd0] using hpos

/-! ### Iterated coalescing (C1) -/

theorem applyReq_rcBase (n : Nat) : applyReq testEnv (rcBase n) rcReq = rcBase (n + 1) := by
  with_unfolding_all rfl

theorem applyReq_rcInit : applyReq testEnv (initialState rcSig) rcReq = rcBase 2 := by decide

theorem repeatSched_rcBase : ∀ (k n : Nat),
    repeatSched testEnv rcReq k (rcBase n) = rcBase (n + k) := by
  intro k
  induction k with
  | zero => intro n; simp [repeatSched]
  | succ k ih =>
    intro n
    show repeatSched testEnv rcReq k (applyReq testEnv (rcBase n) rcReq) = _
    rw [applyReq_rcBase, ih (n + 1)]
    congr 1
    omega

theorem repeatSched_rc (N : Nat) :
    repeatSched testEnv rcReq (N + 1) (initialState rcSig) = rcBase (2 + N) := by
  show repeatSched testEnv rcReq N (applyReq testEnv (initialState rcSig) rcReq) = _
  rw [applyReq_rcInit, repeatSched_rcBase]

/-- C2.  Corrected form.  `choreComparator` is not a total order: for a
FIFO pair (same coalescible kind, equal ordering key, distinct targets)
it deliberately returns `1` in both directions.  Outside the FIFO case,
for chores with equal hosts it is antisymmetric, and within the same
macro phase a chore whose host precedes another chore's host in document
order (an ancestor) always compares before it. -/
theorem c2_comparator_amended :
    (∀ (env : Env) (root : Option VNode) (a b : Chore), a.host = b.host → ¬ fifoCase a b →
      choreComparator env a b root = -choreComparator env b a root) ∧
    (∀ (env : Env) (root : Option VNode) (a b : Chore) (av bv : VNode),
      a.host = some (.vnode av) → b.host = some (.vnode bv) → av ≠ bv →
      macroOf a.ctype = macroOf b.ctype → a.ctype ≠ .JOURNAL_FLUSH →
      env.docPosition av bv root < 0 →
      choreComparator env a b root < 0) :=
  ⟨fun env root a b h hf => choreComparator_antisymm env root a b h hf,
   fun env root a b av bv ha hb hne hm hjf hpos =>
     choreComparator_ancestor_first env root a b av bv ha hb hne hm hjf hpos⟩

/-- C2 witness: antisymmetry at two concrete `TASK` chores with equal
hosts, and ancestor-first ordering at two concrete vnode-hosted `TASK`
chores. -/
theorem c2_comparator_witness :
    choreComparator testEnv (mkChore 0 .TASK .nothing none .null)
        (mkChore 1 .TASK (.task ⟨1, none⟩) none .null) none =
      -choreComparator testEnv (mkChore 1 .TASK (.task ⟨1, none⟩) none .null)
        (mkChore 0 .TASK .nothing none .null) none ∧
    choreComparator testEnv (mkChore 0 .TASK (.task ⟨0, some (.vnode ⟨1, false⟩)⟩) none .null)
        (mkChore 1 .TASK (.task ⟨0, some (.vnode ⟨2, false⟩)⟩) none .null) none < 0 := by
  constructor
  · exact c2_comparator_amended.1 testEnv none _ _ (by decide) (by decide)
  · exact c2_comparator_amended.2 testEnv none _ _ ⟨1, false⟩ ⟨2, false⟩ (by decide) (by decide)
      (by decide) (by decide) (by decide) (by decide)

/-- C2 counterexample: the FIFO pair `rcA`, `rcB` (two recompute chores
for distinct signals) yields `choreComparator = 1` in BOTH directions —
not antisymmetric — and together with `choreComparator rcA rcA = 0` this
also refutes transitivity of the strict "runs after" relation. -/
theorem c2_total_order_counterexample :
    rcA ≠ rcB ∧
    0 < choreComparator testEnv rcA rcB none ∧
    0 < choreComparator testEnv rcB rcA none ∧
    choreComparator testEnv rcA rcA none = 0 := by decide

/-! ### executeChore lemmas -/

theorem getSignal_setSignal (s : SchedulerState) (k : Nat) (v : SignalState) :
    getSignal (setSignal s k v) k = v := by
  simp [getSignal, setSignal, List.lookup]

/-- C8.  For every chore whose external executor throws (synchronously or
via a rejected promise, `ExecOutcome.throwErr`), the error is delivered
to `container.handleError` and the chore still completes: its promise is
resolved (so awaiters are not left pending), its `$returnValue$` is the
recovered value, and the reentrancy guard is released. -/
theorem c8_executor_failure_recovery :
    ∀ (env : Env) (s : SchedulerState) (c : Chore) (e : Nat),
      usesExecutor c.ctype → env.outcome c = .throwErr e →
      (executeChore env s c).stateOf.errors = e :: s.errors ∧
      isExecuted (executeChore env s c).stateOf c = true ∧
      returnValueOf (executeChore env s c).stateOf c = Value.null ∧
      (executeChore env s c).stateOf.currentChore = none := by
  intro env s c e hus henv
  cases hct : c.ctype <;>
    simp only [usesExecutor, hct] at hus <;>
    try simp at hus
  all_goals
    cases hb : s.currentChore.isSome <;>
    simp [executeChore, hct, henv, hb, complete, ExecResult.stateOf, isExecuted, returnValueOf,
      List.lookup]

/-- C8 witness: a `COMPONENT` chore whose executor throws error `42`. -/
theorem c8_executor_failure_recovery_witness :
    (executeChore { testEnv with outcome := fun _ => .throwErr 42 } (initialState [])
        (mkChore 0 .COMPONENT .nothing none .null)).stateOf.errors = [42] ∧
    isExecuted (executeChore { testEnv with outcome := fun _ => .throwErr 42 } (initialState [])
        (mkChore 0 .COMPONENT .nothing none .null)).stateOf
      (mkChore 0 .COMPONENT .nothing none .null) = true := by
  have h := c8_executor_failure_recovery { testEnv with outcome := fun _ => .throwErr 42 }
    (initialState []) (mkChore 0 .COMPONENT .nothing none .null) 42 (by decide) rfl
  exact ⟨h.1, h.2.1⟩

/-- C9.  Corrected form.  Executing a `RECOMPUTE_AND_SCHEDULE_EFFECTS`
chore whose target signal has no subscribers performs no recomputation
and no notification; when subscribers exist, `$computeIfNeeded$` is
invoked and subscriber effects are triggered iff the recomputation
reports a changed value or the target's force-flag was set at the start
of the chore's execution (the flag is read when the chore runs, not
captured at scheduling time). -/
theorem c9_recompute_protocol_amended :
    ∀ (env : Env) (s : SchedulerState) (c : Chore) (sid : Nat),
      c.ctype = ChoreType.RECOMPUTE_AND_SCHEDULE_EFFECTS →
      c.target = some (.signal sid) →
      ((getSignal s sid).effects = [] →
        (executeChore env s c).stateOf.recomputes = s.recomputes ∧
        (executeChore env s c).stateOf.notifications = s.notifications) ∧
      ((getSignal s sid).effects ≠ [] →
        (executeChore env s c).stateOf.recomputes = sid :: s.recomputes ∧
        (executeChore env s c).stateOf.notifications =
          (if (getSignal s sid).computeChanged ∨ (getSignal s sid).forceRunEffects
           then sid :: s.notifications else s.notifications)) := by
  intro env s c sid hct htg
  have hts : targetSignal c = sid := by simp [targetSignal, htg]
  constructor
  · intro hempty
    simp only [getSignal] at hempty
    cases hb : s.currentChore.isSome <;>
      simp [executeChore, hct, hts, hb, complete, setSignal, ExecResult.stateOf, getSignal,
        hempty]
  · intro hne
    simp only [getSignal] at hne
    have hne' : ¬ ((List.lookup sid s.signals).getD ⟨false, [], false⟩).effects.isEmpty := by
      simpa [List.isEmpty_iff] using hne
    rcases hcc : ((List.lookup sid s.signals).getD ⟨false, [], false⟩).computeChanged <;>
      rcases hfr : ((List.lookup sid s.signals).getD ⟨false, [], false⟩).forceRunEffects <;>
      cases hb : s.currentChore.isSome <;>
      simp [executeChore, hct, hts, hb, complete, setSignal, ExecResult.stateOf, getSignal,
        hne', hcc, hfr]

/-- C9 witness: a recompute of a subscriber-less signal changes nothing;
a recompute of a subscribed, changed signal notifies. -/
theorem c9_recompute_protocol_witness :
    (executeChore testEnv (initialState [(5, ⟨false, [], true⟩)]) c9chore).stateOf.notifications
        = [] ∧
    (executeChore testEnv (initialState [(5, ⟨false, [9], true⟩)]) c9chore).stateOf.notifications
        = [5] := by
  constructor
  · exact ((c9_recompute_protocol_amended testEnv (initialState [(5, ⟨false, [], true⟩)])
      c9chore 5 (by decide) (by decide)).1 (by decide)).2
  · have h := ((c9_recompute_protocol_amended testEnv (initialState [(5, ⟨false, [9], true⟩)])
      c9chore 5 (by decide) (by decide)).2 (by decide)).2
    simpa using h

/-- C9 counterexample: the force-flag is read at execution time, not at
scheduling time.  Signal 5 is scheduled while its flag is clear and its
recompute reports no change; the flag is then set (as
`ComputedSignal.force()` does) before the drain — and the drain still
triggers the subscriber effects, though the claim's "changed value or
force-flag set at scheduling time" predicts no notification. -/
theorem c9_schedule_time_flag_counterexample :
    (getSignal c9s1 5).forceRunEffects = false ∧
    (getSignal c9s2 5).computeChanged = false ∧
    (drainUpTo testEnv c9s2 c9chore none).2.1.notifications = [5] := by decide

/-- C10.  Executing a recompute chore always clears the target's
`$forceRunEffects$` flag (the clear happens before the subscriber
check); with no subscribers the flag is consumed without any
notification; and any later recompute executed when the flag is clear
triggers effects only if `$computeIfNeeded$` reports a change — a
consumed force-flag never carries over. -/
theorem c10_force_flag_consumed :
    ∀ (env : Env) (s : SchedulerState) (c : Chore) (sid : Nat),
      c.ctype = ChoreType.RECOMPUTE_AND_SCHEDULE_EFFECTS →
      c.target = some (.signal sid) →
      (getSignal (executeChore env s c).stateOf sid).forceRunEffects = false ∧
      ((getSignal s sid).effects = [] →
        (executeChore env s c).stateOf.notifications = s.notifications) ∧
      (∀ (env2 : Env) (s2 : SchedulerState) (c2 : Chore),
        c2.ctype = ChoreType.RECOMPUTE_AND_SCHEDULE_EFFECTS →
        c2.target = some (.signal sid) →
        (getSignal s2 sid).forceRunEffects = false →
        (getSignal s2 sid).effects ≠ [] →
        (executeChore env2 s2 c2).stateOf.notifications =
          (if (getSignal s2 sid).computeChanged then sid :: s2.notifications
           else s2.notifications)) := by
  intro env s c sid hct htg
  have hts : targetSignal c = sid := by simp [targetSignal, htg]
  refine ⟨?_, ?_, ?_⟩
  · rcases hcc : ((List.lookup sid s.signals).getD ⟨false, [], false⟩).computeChanged <;>
      rcases hfr : ((List.lookup sid s.signals).getD ⟨false, [], false⟩).forceRunEffects <;>
      by_cases hempty : ((List.lookup sid s.signals).getD ⟨false, [], false⟩).effects.isEmpty <;>
      cases hb : s.currentChore.isSome <;>
      simp [executeChore, hct, hts, hb, complete, setSignal, ExecResult.stateOf, getSignal,
        hcc, hfr, hempty, List.lookup]
  · intro hempty
    have h := (c9_recompute_protocol_amended env s c sid hct htg).1 hempty
    exact h.2
  · intro env2 s2 c2 hct2 htg2 hflag hne
    have h := (c9_recompute_protocol_amended env2 s2 c2 sid hct2 htg2).2 hne
    rw [h.2, hflag]
    rcases (getSignal s2 sid).computeChanged <;> simp

/-- C10 witness: a force-flag set on a subscriber-less signal is
consumed silently: no notification, flag cleared, and a later recompute
with an unchanged value stays silent. -/
theorem c10_force_flag_consumed_witness :
    letI s0 := initialState [(5, ⟨true, [], false⟩)]
    (getSignal (executeChore testEnv s0 c9chore).stateOf 5).forceRunEffects = false ∧
    (executeChore testEnv s0 c9chore).stateOf.notifications = [] ∧
    (executeChore testEnv (setSignal (executeChore testEnv s0 c9chore).stateOf 5
        ⟨false, [9], false⟩) c9chore).stateOf.notifications = [] := by
  refine ⟨?_, ?_, ?_⟩
  · exact (c10_force_flag_consumed testEnv _ c9chore 5 (by decide) (by decide)).1
  · exact (c10_force_flag_consumed testEnv _ c9chore 5 (by decide) (by decide)).2.1 (by decide)
  · have h := (c10_force_flag_consumed testEnv (initialState [(5, ⟨true, [], false⟩)])
      c9chore 5 (by decide) (by decide)).2.2 testEnv
      (setSignal (executeChore testEnv (initialState [(5, ⟨true, [], false⟩)]) c9chore).stateOf 5
        ⟨false, [9], false⟩) c9chore (by decide) (by decide)
      (by rw [getSignal_setSignal]) (by rw [getSignal_setSignal]; simp)
    rw [h, getSignal_setSignal]
    simp [getSignal_setSignal]
    with_unfolding_all rfl

/-! ### Structural lemmas about `executeChore` and the drain loop -/

theorem executeChore_stateOf_choreQueue (env : Env) (s : SchedulerState) (c : Chore) :
    ((executeChore env s c).stateOf).choreQueue = s.choreQueue := by
  unfold executeChore
  cases hb : s.currentChore.isSome <;>
    cases hct : c.ctype <;>
    (try rcases henv : env.outcome c with v | _ | e) <;>
    simp [hb, hct, henv, complete, setSignal, ExecResult.stateOf] <;>
    split_ifs <;>
    simp [complete, setSignal, ExecResult.stateOf]

theorem executeChore_stateOf_assertionFailures (env : Env) (s : SchedulerState) (c : Chore)
    (h : s.currentChore = none) :
    ((executeChore env s c).stateOf).assertionFailures = s.assertionFailures := by
  unfold executeChore
  rw [h]
  cases hct : c.ctype <;>
    (try rcases henv : env.outcome c with v | _ | e) <;>
    simp [hct, henv, complete, setSignal, ExecResult.stateOf] <;>
    split_ifs <;>
    simp [complete, setSignal, ExecResult.stateOf]

theorem executeChore_done_currentChore (env : Env) (s : SchedulerState) (c : Chore)
    (v : Value) (s2 : SchedulerState) (h : executeChore env s c = .done v s2) :
    s2.currentChore = none := by
  unfold executeChore at h
  cases hb : s.currentChore.isSome <;>
    rw [hb] at h <;>
    cases hct : c.ctype <;>
    rw [hct] at h <;>
    (try rcases henv : env.outcome c with w | _ | e <;> rw [henv] at h) <;>
    simp [complete, setSignal] at h <;>
    (try split_ifs at h) <;>
    (try simp [complete] at h) <;>
    (try { obtain ⟨h1, h2⟩ := h; rw [← h2] })

theorem executeChore_suspended_currentChore (env : Env) (s : SchedulerState) (c : Chore)
    (s2 : SchedulerState) (h : executeChore env s c = .suspendedExec s2) :
    s2.currentChore = some c := by
  unfold executeChore at h
  cases hb : s.currentChore.isSome <;>
    rw [hb] at h <;>
    cases hct : c.ctype <;>
    rw [hct] at h <;>
    (try rcases henv : env.outcome c with w | _ | e <;> rw [henv] at h) <;>
    simp [complete, setSignal] at h <;>
    (try split_ifs at h) <;>
    (try simp [complete] at h) <;>
    (try { rw [← h] })

theorem drainLoop_trace_sublist (env : Env) (t : Chore) (root : Option VNode) :
    ∀ (queue : List Chore) (s : SchedulerState),
      ((drainLoop env queue s t root).2.2).Sublist queue := by
  intro queue
  induction queue with
  | nil => intro s; simp [drainLoop]
  | cons next rest ih =>
    intro s
    unfold drainLoop
    by_cases h1 : 0 < choreComparator env next t root
    · rw [if_pos h1]
      simp
    · rw [if_neg h1]
      by_cases h2 : vNodeAlreadyDeleted next = true ∧ next.ctype ≠ ChoreType.CLEANUP_VISIBLE
      · rw [if_pos h2]
        exact (ih s).cons next
      · rw [if_neg h2]
        rcases hexec : executeChore env (setQueue s rest) next with ⟨v, s2⟩ | s2 <;>
          simp only [hexec]
        · exact (ih s2).cons₂ next
        · simp

theorem drainLoop_queue_suffix (env : Env) (t : Chore) (root : Option VNode) :
    ∀ (queue : List Chore) (s : SchedulerState),
      ((drainLoop env queue s t root).2.1).choreQueue.IsSuffix queue := by
  intro queue
  induction queue with
  | nil => intro s; simp [drainLoop, setQueue]
  | cons next rest ih =>
    intro s
    unfold drainLoop
    by_cases h1 : 0 < choreComparator env next t root
    · rw [if_pos h1]
      simp only [setQueue]
      exact List.suffix_cons next rest
    · rw [if_neg h1]
      by_cases h2 : vNodeAlreadyDeleted next = true ∧ next.ctype ≠ ChoreType.CLEANUP_VISIBLE
      · rw [if_pos h2]
        exact (ih s).trans (List.suffix_cons next rest)
      · rw [if_neg h2]
        rcases hexec : executeChore env (setQueue s rest) next with ⟨v, s2⟩ | s2 <;>
          simp only [hexec]
        · exact (ih s2).trans (List.suffix_cons next rest)
        · have hq : s2.choreQueue = rest := by
            have hh := executeChore_stateOf_choreQueue env (setQueue s rest) next
            rw [hexec] at hh
            simpa [setQueue] using hh
          rw [hq]
          exact List.suffix_cons next rest

theorem drainLoop_assertionFailures (env : Env) (t : Chore) (root : Option VNode) :
    ∀ (queue : List Chore) (s : SchedulerState), s.currentChore = none →
      ((drainLoop env queue s t root).2.1).assertionFailures = s.assertionFailures := by
  intro queue
  induction queue with
  | nil => intro s h; simp [drainLoop, setQueue]
  | cons next rest ih =>
    intro s h
    unfold drainLoop
    by_cases h1 : 0 < choreComparator env next t root
    · rw [if_pos h1]
      simp [setQueue]
    · rw [if_neg h1]
      by_cases h2 : vNodeAlreadyDeleted next = true ∧ next.ctype ≠ ChoreType.CLEANUP_VISIBLE
      · rw [if_pos h2]
        exact ih s h
      · rw [if_neg h2]
        have hnone : (setQueue s rest).currentChore = none := h
        rcases hexec : executeChore env (setQueue s rest) next with ⟨v, s2⟩ | s2 <;>
          simp only [hexec]
        · have haf : s2.assertionFailures = s.assertionFailures := by
            have hh := executeChore_stateOf_assertionFailures env (setQueue s rest) next hnone
            rw [hexec] at hh
            simpa [setQueue] using hh
          rw [ih s2 (executeChore_done_currentChore env (setQueue s rest) next v s2 hexec), haf]
        · have hh := executeChore_stateOf_assertionFailures env (setQueue s rest) next hnone
          rw [hexec] at hh
          simpa [setQueue] using hh

theorem drainLoop_setQueue (env : Env) (t : Chore) (root : Option VNode) :
    ∀ (queue : List Chore) (s : SchedulerState) (q0 : List Chore),
      drainLoop env queue (setQueue s q0) t root = drainLoop env queue s t root := by
  intro queue
  induction queue with
  | nil => intro s q0; simp [drainLoop, setQueue, returnValueOf]
  | cons next rest ih =>
    intro s q0
    unfold drainLoop
    by_cases h1 : 0 < choreComparator env next t root
    · rw [if_pos h1, if_pos h1]
      simp [setQueue, returnValueOf]
    · rw [if_neg h1, if_neg h1]
      by_cases h2 : vNodeAlreadyDeleted next = true ∧ next.ctype ≠ ChoreType.CLEANUP_VISIBLE
      · rw [if_pos h2, if_pos h2]
        exact ih s q0
      · rw [if_neg h2, if_neg h2]
        have hcollapse : setQueue (setQueue s q0) rest = setQueue s rest := rfl
        rw [hcollapse]

theorem drainUpTo_trace_sublist (env : Env) (s : SchedulerState) (t : Chore)
    (root : Option VNode) :
    ((drainUpTo env s t root).2.2).Sublist s.choreQueue := by
  unfold drainUpTo
  by_cases h1 : isExecuted s t = true
  · rw [if_pos h1]
    exact List.nil_sublist _
  · rw [if_neg h1]
    by_cases h2 : s.currentChore.isSome = true
    · rw [if_pos h2]
      exact List.nil_sublist _
    · rw [if_neg h2]
      exact drainLoop_trace_sublist env t root s.choreQueue s

theorem drainUpTo_assertionFailures (env : Env) (s : SchedulerState) (t : Chore)
    (root : Option VNode) :
    ((drainUpTo env s t root).2.1).assertionFailures = s.assertionFailures := by
  unfold drainUpTo
  by_cases h1 : isExecuted s t = true
  · rw [if_pos h1]
  · rw [if_neg h1]
    by_cases h2 : s.currentChore.isSome = true
    · rw [if_pos h2]
    · rw [if_neg h2]
      exact drainLoop_assertionFailures env t root s.choreQueue s
        (Option.not_isSome_iff_eq_none.mp (by simpa using h2))

/-! ### Reentrancy guard (C5) -/

/-- C5.  Corrected form.  Whenever `drainUpTo` is invoked while
`currentChore` is non-null it executes no chore and returns without
touching the state: the target chore's future — or the target's cached
`$returnValue$` when the target has already executed, since the
`$executed$` early-out precedes the guard.  Consequently the assertion
`'Chore already running.'` at the start of `executeChore` never fails
during any drain. -/
theorem c5_reentrancy_guard_amended :
    (∀ (env : Env) (s : SchedulerState) (t : Chore) (root : Option VNode),
      s.currentChore.isSome = true → isExecuted s t = false →
      drainUpTo env s t root = (.futureOf t.cid, s, [])) ∧
    (∀ (env : Env) (s : SchedulerState) (t : Chore) (root : Option VNode),
      s.currentChore.isSome = true → isExecuted s t = true →
      drainUpTo env s t root = (.value (returnValueOf s t), s, [])) ∧
    (∀ (env : Env) (s : SchedulerState) (t : Chore) (root : Option VNode),
      ((drainUpTo env s t root).2.1).assertionFailures = s.assertionFailures) := by
  refine ⟨?_, ?_, ?_⟩
  · intro env s t root hcur hexec
    unfold drainUpTo
    rw [if_neg (by simp [hexec]), if_pos hcur]
  · intro env s t root hcur hexec
    unfold drainUpTo
    rw [if_pos hexec]
  · intro env s t root
    exact drainUpTo_assertionFailures env s t root

/-- C5 witness: the guard path at a concrete busy state. -/
theorem c5_reentrancy_guard_witness :
    drainUpTo testEnv { initialState [] with currentChore := some c5run } c5tgt none
      = (.futureOf 7, { initialState [] with currentChore := some c5run }, []) := by
  exact c5_reentrancy_guard_amended.1 testEnv
    { initialState [] with currentChore := some c5run } c5tgt none (by decide) (by decide)

/-- C5 counterexample: with `currentChore` non-null and an
already-executed target, `drainUpTo` returns the cached `$returnValue$`
(`ok 3`), not the target's future — the `$executed$` check precedes the
reentrancy guard. -/
theorem c5_executed_target_counterexample :
    c5s.currentChore.isSome = true ∧
    (drainUpTo testEnv c5s c5tgt none).1 = DrainOutcome.value (Value.ok 3) ∧
    (drainUpTo testEnv c5s c5tgt none).1 ≠ DrainOutcome.futureOf c5tgt.cid ∧
    (drainUpTo testEnv c5s c5tgt none).2.2 = [] := by decide

/-! ### Suspension preserves ordering (C6) -/

/-- C6.  When a suspended chore's promise settles, the completion
callback releases the reentrancy guard and resolves the chore without
touching the queue, and the chained `drainUpTo` re-enters from the head
of the sorted queue: the trace of every drain is an in-order sublist of
the queue, so a later-queued chore never executes before an
earlier-queued one. -/
theorem c6_suspend_resume_order :
    (∀ (s : SchedulerState) (v : Value) (c : Chore), s.currentChore = some c →
      (settle s v).currentChore = none ∧ isExecuted (settle s v) c = true ∧
      (settle s v).choreQueue = s.choreQueue) ∧
    (∀ (env : Env) (s : SchedulerState) (t : Chore) (root : Option VNode),
      ((drainUpTo env s t root).2.2).Sublist s.choreQueue) := by
  constructor
  · intro s v c h
    refine ⟨?_, ?_, ?_⟩ <;> simp [settle, h, complete, isExecuted, List.lookup]
  · intro env s t root
    exact drainUpTo_trace_sublist env s t root

/-- C6 witness: settling the suspended `rcA` releases the guard and the
resumed drain processes the remaining queue in order. -/
theorem c6_suspend_resume_order_witness :
    (settle c6susp (Value.ok 1)).currentChore = none ∧
    isExecuted (settle c6susp (Value.ok 1)) rcA = true ∧
    ((drainUpTo testEnv (settle c6susp (Value.ok 1)) wfa99 none).2.2).Sublist
      (settle c6susp (Value.ok 1)).choreQueue := by
  refine ⟨?_, ?_, ?_⟩
  · exact (c6_suspend_resume_order.1 c6susp (Value.ok 1) rcA rfl).1
  · exact (c6_suspend_resume_order.1 c6susp (Value.ok 1) rcA rfl).2.1
  · exact c6_suspend_resume_order.2 testEnv (settle c6susp (Value.ok 1)) wfa99 none

/-! ### Stale-owner handling (C7) -/

/-- C7.  During a drain, a queued chore whose host vnode carries the
`Deleted` flag and whose kind is not `CLEANUP_VISIBLE` is skipped
without invoking its executor and without any other effect: the drain
result equals that of the state with the chore simply removed (in
particular no error is reported).  A deleted-host `CLEANUP_VISIBLE`
chore is still executed (it heads the execution trace). -/
theorem c7_stale_owner_skip :
    ∀ (env : Env) (s : SchedulerState) (t : Chore) (root : Option VNode) (next : Chore)
      (rest : List Chore),
      s.currentChore = none → isExecuted s t = false → s.choreQueue = next :: rest →
      choreComparator env next t root ≤ 0 → vNodeAlreadyDeleted next = true →
      (next.ctype ≠ ChoreType.CLEANUP_VISIBLE →
        drainUpTo env s t root = drainUpTo env (setQueue s rest) t root) ∧
      (next.ctype = ChoreType.CLEANUP_VISIBLE →
        ((drainUpTo env s t root).2.2).head? = some next) := by
  intro env s t root next rest hcur hexec hq hord hdel
  have hns : s.currentChore.isSome = false := by simp [hcur]
  constructor
  · intro hnc
    unfold drainUpTo
    rw [if_neg (by simp [hexec]), if_neg (by simp [hns])]
    rw [if_neg (by simp [show isExecuted (setQueue s rest) t = isExecuted s t from rfl, hexec]),
      if_neg (by simp [show (setQueue s rest).currentChore = s.currentChore from rfl, hns])]
    rw [hq, show (setQueue s rest).choreQueue = rest from rfl]
    rw [drainLoop_setQueue env t root rest s rest]
    conv_lhs => unfold drainLoop
    rw [if_neg (by omega), if_pos ⟨hdel, hnc⟩]
  · intro hc
    unfold drainUpTo
    rw [if_neg (by simp [hexec]), if_neg (by simp [hns])]
    rw [hq]
    unfold drainLoop
    rw [if_neg (by omega), if_neg (by simp [hc])]
    rcases hexec2 : executeChore env (setQueue s rest) next with ⟨v, s2⟩ | s2 <;>
      simp [hexec2]

/-- C7 witness: a deleted-host `TASK` chore is skipped (the drain result
is that of the emptied queue); a deleted-host `CLEANUP_VISIBLE` chore is
executed first. -/
theorem c7_stale_owner_skip_witness :
    drainUpTo testEnv c7s wfa99 none = drainUpTo testEnv (setQueue c7s []) wfa99 none ∧
    ((drainUpTo testEnv c7sc wfa99 none).2.2).head? = some delCleanupChore := by
  constructor
  · exact (c7_stale_owner_skip testEnv c7s wfa99 none delTaskChore [] rfl (by decide) rfl
      (by decide) (by decide)).1 (by decide)
  · exact (c7_stale_owner_skip testEnv c7sc wfa99 none delCleanupChore [] rfl (by decide) rfl
      (by decide) (by decide)).2 (by decide)

/-! ### Binary-search and insert lemmas -/

theorem choreUpdate_ctype (e v : Chore) : (choreUpdate e v).ctype = e.ctype := by
  unfold choreUpdate; split_ifs <;> rfl

theorem choreComparator_macro_cases (env : Env) (a b : Chore) (root : Option VNode) :
    choreComparator env a b root = ((macroOf a.ctype : Int) - macroOf b.ctype) ∨
      macroOf a.ctype = macroOf b.ctype := by
  unfold choreComparator
  by_cases hm : ((macroOf a.ctype : Int) - macroOf b.ctype) = 0
  · right; omega
  · left; rw [if_neg hm]

/-- When the binary search reports a hit, the hit is in bounds and the
probed entry compares `0` with the searched chore. -/
theorem sortedFindIndexLoop_found (env : Env) (arr : List Chore) (value : Chore)
    (root : Option VNode) :
    ∀ (fuel bottom top : Nat), top ≤ arr.length →
      ∀ k : Nat, sortedFindIndexLoop env arr value root fuel bottom top = (k : Int) →
        k < arr.length ∧ choreComparator env value (arr.getD k value) root = 0 := by
  intro fuel
  induction fuel with
  | zero =>
    intro bottom top htop k hk
    exfalso
    simp only [sortedFindIndexLoop] at hk
    omega
  | succ fuel ih =>
    intro bottom top htop k hk
    unfold sortedFindIndexLoop at hk
    by_cases hbt : bottom < top
    · rw [if_pos hbt] at hk
      by_cases hlt : choreComparator env value
          (arr.getD (bottom + (top - bottom) / 2) value) root < 0
      · rw [if_pos hlt] at hk
        exact ih bottom (bottom + (top - bottom) / 2) (by omega) k hk
      · rw [if_neg hlt] at hk
        by_cases hgt : 0 < choreComparator env value
            (arr.getD (bottom + (top - bottom) / 2) value) root
        · rw [if_pos hgt] at hk
          exact ih (bottom + (top - bottom) / 2 + 1) top htop k hk
        · rw [if_neg hgt] at hk
          have hkm : k = bottom + (top - bottom) / 2 := by omega
          subst hkm
          exact ⟨by omega, by omega⟩
    · rw [if_neg hbt] at hk
      exfalso
      omega

/-- C1.  Corrected form.  Coalescing is best-effort, not an invariant.
(1) Scheduling `RECOMPUTE_AND_SCHEDULE_EFFECTS` for the same signal any
number `N + 1` of times in a row before a drain leaves exactly one
recompute chore in the queue (next to the single pre-registered
`JOURNAL_FLUSH`), and a subsequent drain executes the recompute exactly
once, invoking `$computeIfNeeded$` once and `triggerEffects` once.
(2) Whenever the binary search reports a hit, the probed entry has an
equal Ordering Key (`choreComparator` 0) and `sortedInsert` returns that
(`choreUpdate`-merged) entry in place instead of inserting a second one.
(3)/(4) `choreUpdate` merges the newly scheduled payload only into a
`NODE_DIFF` chore; every other existing chore — including the
coalescible kinds — is returned unchanged.  (5) The at-most-one-per-key
invariant fails in general: after scheduling recomputes of signal 1,
signal 2 and signal 1 again, the FIFO comparison against the signal-2
entry deflects the binary search past the queued signal-1 entry, a
second equal-key chore is spliced in, and one drain recomputes signal 1
twice. -/
theorem c1_coalescing_amended :
    (∀ N : Nat,
      ((repeatSched testEnv rcReq (N + 1) (initialState rcSig)).choreQueue.countP
          (fun c => c.ctype = ChoreType.RECOMPUTE_AND_SCHEDULE_EFFECTS)) = 1 ∧
      (repeatSched testEnv rcReq (N + 1) (initialState rcSig)).choreQueue.length = 2 ∧
      ((drainUpTo testEnv (repeatSched testEnv rcReq (N + 1) (initialState rcSig))
          wfa99 none).2.2.countP
          (fun c => c.ctype = ChoreType.RECOMPUTE_AND_SCHEDULE_EFFECTS)) = 1 ∧
      (drainUpTo testEnv (repeatSched testEnv rcReq (N + 1) (initialState rcSig))
          wfa99 none).2.1.recomputes = [5] ∧
      (drainUpTo testEnv (repeatSched testEnv rcReq (N + 1) (initialState rcSig))
          wfa99 none).2.1.notifications = [5]) ∧
    (∀ (env : Env) (arr : List Chore) (value : Chore) (root : Option VNode) (k : Nat),
      sortedFindIndex env arr value root = (k : Int) →
      k < arr.length ∧
      choreComparator env value (arr.getD k value) root = 0 ∧
      sortedInsert env arr value root =
        (choreUpdate (arr.getD k value) value,
         arr.set k (choreUpdate (arr.getD k value) value))) ∧
    (∀ e v : Chore, e.ctype ≠ ChoreType.NODE_DIFF → choreUpdate e v = e) ∧
    (∀ e v : Chore, e.ctype = ChoreType.NODE_DIFF → (choreUpdate e v).payload = v.payload) ∧
    ((dupS3.choreQueue.countP fun c =>
        c.ctype = ChoreType.RECOMPUTE_AND_SCHEDULE_EFFECTS ∧
          c.target = some (.signal 1)) = 2 ∧
      (drainUpTo testEnv dupS3 wfa99 none).2.1.recomputes = [1, 2, 1]) := by
  refine ⟨?_, ?_, ?_, ?_, ?_⟩
  · intro N
    rw [repeatSched_rc]
    refine ⟨by with_unfolding_all rfl, by with_unfolding_all rfl, by with_unfolding_all rfl,
      by with_unfolding_all rfl, by with_unfolding_all rfl⟩
  · intro env arr value root k hk
    have hfound := sortedFindIndexLoop_found env arr value root arr.length 0 arr.length
      le_rfl k (by rw [← sortedFindIndex]; exact hk)
    refine ⟨hfound.1, hfound.2, ?_⟩
    unfold sortedInsert
    rw [if_neg (by rw [hk]; omega)]
    have hkk : (sortedFindIndex env arr value root).toNat = k := by omega
    rw [hkk]
  · intro e v h
    unfold choreUpdate
    simp [h]
  · intro e v h
    unfold choreUpdate
    simp [h]
  · exact ⟨by decide, by decide⟩

/-- C1 witness: the conditional parts of `c1_coalescing_amended`
instantiated at `N = 2` and at concrete chores (the found-case part at a
duplicate recompute hitting the queued entry). -/
theorem c1_coalescing_witness :
    ((repeatSched testEnv rcReq 3 (initialState rcSig)).choreQueue.countP
        (fun c => c.ctype = ChoreType.RECOMPUTE_AND_SCHEDULE_EFFECTS)) = 1 ∧
    sortedInsert testEnv [rcR0, rcJF1]
        (mkChore 7 .RECOMPUTE_AND_SCHEDULE_EFFECTS .nothing (some (.signal 5)) .null) none =
      (rcR0, [rcR0, rcJF1]) ∧
    choreUpdate rcR0 rcB = rcR0 ∧
    (choreUpdate (mkChore 4 .NODE_DIFF .nothing none (.val 1))
        (mkChore 5 .NODE_DIFF .nothing none (.val 2))).payload = Payload.val 2 := by
  refine ⟨(c1_coalescing_amended.1 2).1, ?_, ?_, ?_⟩
  · have h := (c1_coalescing_amended.2.1 testEnv [rcR0, rcJF1]
      (mkChore 7 .RECOMPUTE_AND_SCHEDULE_EFFECTS .nothing (some (.signal 5)) .null) none 0
      (by decide)).2.2
    exact h.trans (by decide)
  · exact c1_coalescing_amended.2.2.1 rcR0 rcB (by decide)
  · exact c1_coalescing_amended.2.2.2.1 _ _ (by decide)

/-- C1 counterexample: (a) a duplicate `NODE_PROP` chore for the same
host and property name, scheduled with a new payload, is coalesced but
the existing queue entry keeps the OLD payload — the new payload is not
merged (merging happens only for `NODE_DIFF`); (b) after scheduling
recomputes of signal 1, signal 2 and signal 1 again, the queue holds TWO
chores with the identical Ordering Key (same kind, host, index and
target) and the drain invokes `$computeIfNeeded$` on signal 1 twice —
refuting both the at-most-one-per-key invariant and "exactly one
execution". -/
theorem c1_coalescing_counterexample :
    ((npS2.choreQueue.countP fun c => c.ctype = ChoreType.NODE_PROP) = 1 ∧
      (npS2.choreQueue.getD 0 dummyChore).ctype = ChoreType.NODE_PROP ∧
      (npS2.choreQueue.getD 0 dummyChore).payload = Payload.val 1 ∧
      Payload.val 1 ≠ Payload.val 2) ∧
    ((dupS3.choreQueue.countP fun c =>
        c.ctype = ChoreType.RECOMPUTE_AND_SCHEDULE_EFFECTS ∧
          c.target = some (.signal 1)) = 2 ∧
      (drainUpTo testEnv dupS3 wfa99 none).2.1.recomputes = [1, 2, 1]) := by
  exact ⟨by decide, by decide, by decide⟩

/-! ### Comparator order properties (C2) -/

/-- Inserting a `JOURNAL_FLUSH` chore always leaves a `JOURNAL_FLUSH`
chore in the queue (whether freshly spliced in or merged into an
existing one, which by the macro comparison must itself be a
`JOURNAL_FLUSH`). -/
theorem sortedInsert_jf_mem (env : Env) (arr : List Chore) (jf : Chore) (root : Option VNode)
    (hjf : jf.ctype = ChoreType.JOURNAL_FLUSH) :
    ∃ c ∈ (sortedInsert env arr jf root).2, c.ctype = ChoreType.JOURNAL_FLUSH := by
  unfold sortedInsert
  by_cases hneg : sortedFindIndex env arr jf root < 0
  · rw [if_pos hneg]
    exact ⟨jf, by simp [splice], hjf⟩
  · rw [if_neg hneg]
    obtain ⟨k, hk⟩ : ∃ k : Nat, sortedFindIndex env arr jf root = (k : Int) :=
      ⟨(sortedFindIndex env arr jf root).toNat, (Int.toNat_of_nonneg (by omega)).symm⟩
    have hfound := sortedFindIndexLoop_found env arr jf root arr.length 0 arr.length le_rfl k
      (by rw [← sortedFindIndex]; exact hk)
    have hmphase : macroOf (arr.getD k jf).ctype = 16 := by
      rcases choreComparator_macro_cases env jf (arr.getD k jf) root with hcc | hcc
      · rw [hfound.2] at hcc
        have heq : macroOf jf.ctype = macroOf (arr.getD k jf).ctype := by omega
        rw [← heq, hjf]
        decide
      · rw [← hcc, hjf]
        decide
    have hct : (arr.getD k jf).ctype = ChoreType.JOURNAL_FLUSH :=
      macroOf_sixteen_eq_jf _ hmphase
    have hkk : (sortedFindIndex env arr jf root).toNat = k := by omega
    rw [hkk]
    refine ⟨choreUpdate (arr.getD k jf) jf, List.mem_set arr k hfound.1 _, ?_⟩
    rw [choreUpdate_ctype]
    exact hct

/-! ### schedule's return contract (C4) -/

/-- C4.  For the terminal kinds `WAIT_FOR_ALL` and `COMPONENT_SSR`,
`schedule` performs an immediate synchronous `drainUpTo` up to and
including the newly inserted chore and returns its outcome (the computed
result, or a future if execution suspended), registering no journal
flush and no host drain request.  For every other kind it returns the
future of the chore `sortedInsert` produced (the fresh chore, or the
coalesced existing one), executes nothing, and — exactly when
`journalFlushScheduled` was false — sets the flag, requests a drain from
the host environment, and pre-registers a `JOURNAL_FLUSH` chore in the
queue. -/
theorem c4_schedule_contract :
    (∀ (env : Env) (s : SchedulerState) (t : ChoreType) (h : HostOrTask)
        (tgt : Option ChoreTarget) (p : Payload),
      t = ChoreType.WAIT_FOR_ALL ∨ t = ChoreType.COMPONENT_SSR →
      schedule env s t h tgt p =
        (let ins := sortedInsert env s.choreQueue (mkChore s.nextId t h tgt p) env.rootVNode
         let s2 := setQueue { s with nextId := s.nextId + 1 } ins.2
         let r := drainUpTo env s2 ins.1 env.rootVNode
         (.drained r.1, r.2.1, r.2.2))) ∧
    (∀ (env : Env) (s : SchedulerState) (t : ChoreType) (h : HostOrTask)
        (tgt : Option ChoreTarget) (p : Payload),
      t ≠ ChoreType.WAIT_FOR_ALL → t ≠ ChoreType.COMPONENT_SSR →
      (schedule env s t h tgt p).1 =
        .future (sortedInsert env s.choreQueue (mkChore s.nextId t h tgt p) env.rootVNode).1.cid ∧
      (schedule env s t h tgt p).2.2 = [] ∧
      (s.journalFlushScheduled = false →
        (schedule env s t h tgt p).2.1.journalFlushScheduled = true ∧
        (schedule env s t h tgt p).2.1.drainRequested = true ∧
        ∃ c ∈ (schedule env s t h tgt p).2.1.choreQueue, c.ctype = ChoreType.JOURNAL_FLUSH) ∧
      (s.journalFlushScheduled = true →
        (schedule env s t h tgt p).2.1 =
          setQueue { s with nextId := s.nextId + 1 }
            (sortedInsert env s.choreQueue (mkChore s.nextId t h tgt p) env.rootVNode).2)) := by
  constructor
  · intro env s t h tgt p ht
    rcases ht with rfl | rfl <;> simp [schedule]
  · intro env s t h tgt p h1 h2
    have hd : decide (t ≠ ChoreType.WAIT_FOR_ALL ∧ t ≠ ChoreType.COMPONENT_SSR) = true := by
      simp [h1, h2]
    by_cases hflag : s.journalFlushScheduled = true
    · simp [schedule, hd, hflag, setQueue]
    · simp [schedule, hd, hflag, setQueue]
      exact sortedInsert_jf_mem env _ _ env.rootVNode rfl

/-- C4 witness: a terminal `WAIT_FOR_ALL` schedule drains immediately;
a `TASK` schedule from an idle state pre-registers the journal flush and
requests a drain. -/
theorem c4_schedule_contract_witness :
    schedule testEnv (initialState []) .WAIT_FOR_ALL .nothing none .null =
      (let ins := sortedInsert testEnv (initialState []).choreQueue
         (mkChore (initialState []).nextId .WAIT_FOR_ALL .nothing none .null) testEnv.rootVNode
       let s2 := setQueue { initialState [] with nextId := (initialState []).nextId + 1 } ins.2
       let r := drainUpTo testEnv s2 ins.1 testEnv.rootVNode
       (.drained r.1, r.2.1, r.2.2)) ∧
    (schedule testEnv (initialState []) .TASK (.task ⟨0, none⟩) none
        .null).2.1.journalFlushScheduled = true ∧
    (schedule testEnv (initialState []) .TASK (.task ⟨0, none⟩) none
        .null).2.1.drainRequested = true := by
  refine ⟨c4_schedule_contract.1 testEnv (initialState []) .WAIT_FOR_ALL .nothing none .null
    (Or.inl rfl), ?_, ?_⟩
  · exact ((c4_schedule_contract.2 testEnv (initialState []) .TASK (.task ⟨0, none⟩) none .null
      (by decide) (by decide)).2.2.1 (by decide)).1
  · exact ((c4_schedule_contract.2 testEnv (initialState []) .TASK (.task ⟨0, none⟩) none .null
      (by decide) (by decide)).2.2.1 (by decide)).2.1

/-! ### Macro-phase ordering through the queue (C3) -/

theorem comp_nonpos_macro {env : Env} {a b : Chore} {root : Option VNode}
    (h : choreComparator env a b root ≤ 0) : macroKey a ≤ macroKey b := by
  rcases choreComparator_macro_cases env a b root with hc | hc
  · rw [hc] at h
    unfold macroKey
    omega
  · unfold macroKey
    omega

theorem comp_nonneg_macro {env : Env} {a b : Chore} {root : Option VNode}
    (h : 0 ≤ choreComparator env a b root) : macroKey b ≤ macroKey a := by
  rcases choreComparator_macro_cases env a b root with hc | hc
  · rw [hc] at h
    unfold macroKey
    omega
  · unfold macroKey
    omega

theorem macroSorted_getD {l : List Chore} (hs : macroSorted l) {i j : Nat} (d : Chore)
    (hij : i ≤ j) (hj : j < l.length) :
    macroKey (l.getD i d) ≤ macroKey (l.getD j d) := by
  rcases Nat.eq_or_lt_of_le hij with rfl | hlt
  · exact le_rfl
  · have hi : i < l.length := lt_of_lt_of_le hlt (le_of_lt hj) |>.trans_le le_rfl
    rw [List.getD_eq_getElem l d (by omega), List.getD_eq_getElem l d hj]
    exact List.pairwise_iff_getElem.mp hs i j (by omega) hj hlt

theorem sortedFindIndexLoop_insert_pos (env : Env) (arr : List Chore) (value : Chore)
    (root : Option VNode) (hs : macroSorted arr) :
    ∀ (fuel bottom top : Nat), top - bottom ≤ fuel → bottom ≤ top → top ≤ arr.length →
      (∀ i, i < bottom → macroKey (arr.getD i value) ≤ macroKey value) →
      (∀ i, top ≤ i → i < arr.length → macroKey value ≤ macroKey (arr.getD i value)) →
      sortedFindIndexLoop env arr value root fuel bottom top < 0 →
      ∃ b : Nat, sortedFindIndexLoop env arr value root fuel bottom top = -((b : Int) + 1) ∧
        b ≤ arr.length ∧
        (∀ i, i < b → macroKey (arr.getD i value) ≤ macroKey value) ∧
        (∀ i, b ≤ i → i < arr.length → macroKey value ≤ macroKey (arr.getD i value)) := by
  intro fuel
  induction fuel with
  | zero =>
    intro bottom top hfuel hbt htop h1 h2 _hneg
    refine ⟨bottom, by simp [sortedFindIndexLoop], by omega, h1, ?_⟩
    intro i hi hil
    exact h2 i (by omega) hil
  | succ fuel ih =>
    intro bottom top hfuel hbt htop h1 h2 hneg
    by_cases hlt : bottom < top
    · unfold sortedFindIndexLoop at hneg ⊢
      rw [if_pos hlt] at hneg ⊢
      by_cases hc1 : choreComparator env value
          (arr.getD (bottom + (top - bottom) / 2) value) root < 0
      · rw [if_pos hc1] at hneg ⊢
        have hvm : macroKey value ≤ macroKey (arr.getD (bottom + (top - bottom) / 2) value) :=
          comp_nonpos_macro (le_of_lt hc1)
        refine ih bottom (bottom + (top - bottom) / 2) (by omega) (by omega) (by omega) h1
          ?_ hneg
        intro i hi hil
        exact le_trans hvm (macroSorted_getD hs value hi hil)
      · rw [if_neg hc1] at hneg ⊢
        by_cases hc2 : 0 < choreComparator env value
            (arr.getD (bottom + (top - bottom) / 2) value) root
        · rw [if_pos hc2] at hneg ⊢
          have hvm : macroKey (arr.getD (bottom + (top - bottom) / 2) value) ≤ macroKey value :=
            comp_nonneg_macro (le_of_lt hc2)
          refine ih (bottom + (top - bottom) / 2 + 1) top (by omega) (by omega) htop ?_ h2 hneg
          intro i hi
          exact le_trans (macroSorted_getD hs value (by omega) (by omega)) hvm
        · rw [if_neg hc2] at hneg
          exfalso
          omega
    · unfold sortedFindIndexLoop at hneg ⊢
      rw [if_neg hlt] at hneg ⊢
      refine ⟨bottom, rfl, by omega, h1, ?_⟩
      intro i hi hil
      exact h2 i (by omega) hil

theorem macroSorted_splice (l : List Chore) (v : Chore) (b : Nat) (hs : macroSorted l)
    (hb : b ≤ l.length)
    (h1 : ∀ i, i < b → macroKey (l.getD i v) ≤ macroKey v)
    (h2 : ∀ i, b ≤ i → i < l.length → macroKey v ≤ macroKey (l.getD i v)) :
    macroSorted (splice l b v) := by
  have hmem_take : ∀ x ∈ l.take b, macroKey x ≤ macroKey v := by
    intro x hx
    obtain ⟨i, hi, hgx⟩ := List.getElem_of_mem hx
    have hib : i < b := by
      have := hi
      rw [List.length_take] at this
      omega
    have hil : i < l.length := by
      have := hi
      rw [List.length_take] at this
      omega
    rw [List.getElem_take] at hgx
    rw [← hgx, ← List.getD_eq_getElem l v hil]
    exact h1 i hib
  have hmem_drop : ∀ y ∈ l.drop b, macroKey v ≤ macroKey y := by
    intro y hy
    obtain ⟨j, hj, hgy⟩ := List.getElem_of_mem hy
    have hjl : b + j < l.length := by
      have := hj
      rw [List.length_drop] at this
      omega
    have hgd : (l.drop b)[j] = l[b + j] := by
      rw [List.getElem_drop']
    rw [hgd] at hgy
    rw [← hgy, ← List.getD_eq_getElem l v hjl]
    exact h2 (b + j) (by omega) hjl
  unfold splice macroSorted
  rw [List.pairwise_append]
  refine ⟨List.Pairwise.sublist (List.take_sublist b l) hs, ?_, ?_⟩
  · rw [List.pairwise_cons]
    exact ⟨hmem_drop, List.Pairwise.sublist (List.drop_sublist b l) hs⟩
  · intro x hx y hy
    rcases List.mem_cons.mp hy with rfl | hy2
    · exact hmem_take x hx
    · exact le_trans (hmem_take x hx) (hmem_drop y hy2)

theorem macroSorted_set (l : List Chore) (k : Nat) (u : Chore) (hs : macroSorted l)
    (hk : k < l.length) (hkey : macroKey u = macroKey (l.getD k u)) :
    macroSorted (l.set k u) := by
  unfold macroSorted
  rw [List.pairwise_iff_getElem]
  intro i j hi hj hij
  rw [List.length_set] at hi hj
  have hacc := List.pairwise_iff_getElem.mp hs
  rw [List.getElem_set, List.getElem_set]
  rw [List.getD_eq_getElem l u hk] at hkey
  split_ifs with he1 he2 he2
  · omega
  · subst he1
    rw [hkey]
    exact hacc k j hk hj hij
  · subst he2
    rw [hkey]
    exact hacc i k hi hk hij
  · exact hacc i j hi hj hij

theorem sortedInsert_macroSorted (env : Env) (arr : List Chore) (value : Chore)
    (root : Option VNode) (hs : macroSorted arr) :
    macroSorted (sortedInsert env arr value root).2 := by
  unfold sortedInsert
  by_cases hneg : sortedFindIndex env arr value root < 0
  · rw [if_pos hneg]
    obtain ⟨b, heq, hb, h1, h2⟩ := sortedFindIndexLoop_insert_pos env arr value root hs
      arr.length 0 arr.length (by omega) (by omega) le_rfl
      (by intro i hi; omega)
      (by intro i hi hil; omega)
      (by rw [← sortedFindIndex] at *; exact hneg)
    have hbt : (-(sortedFindIndex env arr value root) - 1).toNat = b := by
      rw [sortedFindIndex] at *
      omega
    rw [hbt]
    exact macroSorted_splice arr value b hs hb h1 h2
  · rw [if_neg hneg]
    obtain ⟨k, hk⟩ : ∃ k : Nat, sortedFindIndex env arr value root = (k : Int) :=
      ⟨(sortedFindIndex env arr value root).toNat, (Int.toNat_of_nonneg (by omega)).symm⟩
    have hfound := sortedFindIndexLoop_found env arr value root arr.length 0 arr.length le_rfl k
      (by rw [← sortedFindIndex]; exact hk)
    have hkk : (sortedFindIndex env arr value root).toNat = k := by omega
    rw [hkk]
    apply macroSorted_set arr k _ hs hfound.1
    have hgd : arr.getD k (choreUpdate (arr.getD k value) value) = arr.getD k value := by
      rw [List.getD_eq_getElem arr _ hfound.1]
      exact (List.getD_eq_getElem arr value hfound.1).symm
    rw [hgd]
    unfold macroKey
    rw [choreUpdate_ctype]

theorem drainUpTo_queue_suffix (env : Env) (s : SchedulerState) (t : Chore)
    (root : Option VNode) :
    ((drainUpTo env s t root).2.1.choreQueue).IsSuffix s.choreQueue := by
  unfold drainUpTo
  by_cases h1 : isExecuted s t = true
  · rw [if_pos h1]
  · rw [if_neg h1]
    by_cases h2 : s.currentChore.isSome = true
    · rw [if_pos h2]
    · rw [if_neg h2]
      exact drainLoop_queue_suffix env t root s.choreQueue s

theorem schedule_macroSorted (env : Env) (s : SchedulerState) (t : ChoreType)
    (h : HostOrTask) (tgt : Option ChoreTarget) (p : Payload)
    (hs : macroSorted s.choreQueue) :
    macroSorted ((schedule env s t h tgt p).2.1.choreQueue) := by
  have hins : macroSorted
      (sortedInsert env s.choreQueue (mkChore s.nextId t h tgt p) env.rootVNode).2 :=
    sortedInsert_macroSorted env s.choreQueue _ env.rootVNode hs
  simp only [schedule]
  split_ifs with hA hB
  all_goals
    first
      | exact sortedInsert_macroSorted env _ _ env.rootVNode hins
      | exact hins
      | exact List.Pairwise.sublist (List.IsSuffix.sublist (drainUpTo_queue_suffix env _ _ _))
          (sortedInsert_macroSorted env _ _ env.rootVNode hins)
      | exact List.Pairwise.sublist (List.IsSuffix.sublist (drainUpTo_queue_suffix env _ _ _)) hins

theorem applyReqs_macroSorted (env : Env) (reqs : List SchedReq) :
    ∀ s : SchedulerState, macroSorted s.choreQueue →
      macroSorted ((applyReqs env reqs s).choreQueue) := by
  induction reqs with
  | nil => intro s hs; exact hs
  | cons r rs ih =>
    intro s hs
    exact ih _ (schedule_macroSorted env s r.t r.hostOrTask r.targetOrQrl r.payload hs)

theorem beforeFlush_macroOf : ∀ t : ChoreType, beforeFlushKind t = true → macroOf t = 0 := by
  decide

theorem afterFlush_macroOf :
    ∀ t : ChoreType, afterFlushKind t = true → macroOf t = 32 ∨ macroOf t = 48 := by
  decide

theorem nonWfa_macroOf : ∀ t : ChoreType, t ≠ ChoreType.WAIT_FOR_ALL → macroOf t ≤ 48 := by
  decide

theorem comp_of_macro_ne (env : Env) (a b : Chore) (root : Option VNode)
    (h : macroOf a.ctype ≠ macroOf b.ctype) :
    choreComparator env a b root = ((macroOf a.ctype : Int) - macroOf b.ctype) := by
  rcases choreComparator_macro_cases env a b root with hc | hc
  · exact hc
  · exact absurd hc h

/-- C3.  Macro-phase execution order.  From any sequence of `schedule`
calls applied to a fresh scheduler (any interleaving), the trace of a
subsequent drain never runs an after-flush chore (`VISIBLE`,
`CLEANUP_VISIBLE`) before a before-flush chore (the eight kinds with
macro phase 0); moreover `choreComparator` orders every before-flush
chore before every after-flush chore, `JOURNAL_FLUSH` after all
before-flush and before all after-flush chores, and `WAIT_FOR_ALL`
after every chore of any other kind. -/
theorem c3_phase_ordering :
    (∀ (env : Env) (reqs : List SchedReq) (sigs : List (Nat × SignalState)) (t : Chore)
        (root : Option VNode) (i j : Nat),
      i < j →
      j < ((drainUpTo env (applyReqs env reqs (initialState sigs)) t root).2.2).length →
      afterFlushKind (((drainUpTo env (applyReqs env reqs (initialState sigs)) t
          root).2.2).getD i dummyChore).ctype = true →
      beforeFlushKind (((drainUpTo env (applyReqs env reqs (initialState sigs)) t
          root).2.2).getD j dummyChore).ctype = false) ∧
    (∀ (env : Env) (a b : Chore) (root : Option VNode),
      beforeFlushKind a.ctype = true → afterFlushKind b.ctype = true →
      choreComparator env a b root < 0) ∧
    (∀ (env : Env) (a b : Chore) (root : Option VNode),
      beforeFlushKind a.ctype = true → b.ctype = ChoreType.JOURNAL_FLUSH →
      choreComparator env a b root < 0) ∧
    (∀ (env : Env) (a b : Chore) (root : Option VNode),
      afterFlushKind a.ctype = true → b.ctype = ChoreType.JOURNAL_FLUSH →
      0 < choreComparator env a b root) ∧
    (∀ (env : Env) (a b : Chore) (root : Option VNode),
      a.ctype = ChoreType.WAIT_FOR_ALL → b.ctype ≠ ChoreType.WAIT_FOR_ALL →
      0 < choreComparator env a b root) := by
  refine ⟨?_, ?_, ?_, ?_, ?_⟩
  · intro env reqs sigs t root i j hij hj hafter
    set st := applyReqs env reqs (initialState sigs) with hst
    have hsq : macroSorted st.choreQueue :=
      applyReqs_macroSorted env reqs (initialState sigs) List.Pairwise.nil
    have htr : macroSorted ((drainUpTo env st t root).2.2) :=
      List.Pairwise.sublist (drainUpTo_trace_sublist env st t root) hsq
    have hkey := macroSorted_getD htr dummyChore (le_of_lt hij) hj
    have h32 : 32 ≤ macroKey (((drainUpTo env st t root).2.2).getD i dummyChore) := by
      rcases afterFlush_macroOf _ hafter with hm | hm <;> unfold macroKey <;> omega
    by_contra hbf
    have hbf2 : beforeFlushKind
        (((drainUpTo env st t root).2.2).getD j dummyChore).ctype = true := by
      revert hbf
      cases beforeFlushKind (((drainUpTo env st t root).2.2).getD j dummyChore).ctype <;> simp
    have h0 := beforeFlush_macroOf _ hbf2
    unfold macroKey at hkey h32
    omega
  · intro env a b root h1 h2
    have hma := beforeFlush_macroOf _ h1
    rcases afterFlush_macroOf _ h2 with hmb | hmb <;>
      rw [comp_of_macro_ne env a b root (by omega), hma, hmb] <;> decide
  · intro env a b root h1 h2
    have hma := beforeFlush_macroOf _ h1
    have hmb : macroOf b.ctype = 16 := by rw [h2]; decide
    rw [comp_of_macro_ne env a b root (by omega), hma, hmb]
    decide
  · intro env a b root h1 h2
    rcases afterFlush_macroOf _ h1 with hma | hma <;>
      have hmb : macroOf b.ctype = 16 := by rw [h2]; decide
    all_goals rw [comp_of_macro_ne env a b root (by omega), hma, hmb]
    all_goals decide
  · intro env a b root h1 h2
    have hma : macroOf a.ctype = 240 := by rw [h1]; decide
    have hmb := nonWfa_macroOf _ h2
    rw [comp_of_macro_ne env a b root (by omega), hma]
    omega

/-- C3 witness: two scheduled visible tasks drain after the journal
flush, and the comparator facts at concrete chores. -/
theorem c3_phase_ordering_witness :
    beforeFlushKind (((drainUpTo testEnv (applyReqs testEnv
        [⟨.VISIBLE, .task ⟨0, none⟩, none, .null⟩, ⟨.VISIBLE, .task ⟨1, none⟩, none, .null⟩]
        (initialState [])) wfa99 none).2.2).getD 2 dummyChore).ctype = false ∧
    choreComparator testEnv (mkChore 0 .TASK .nothing none .null)
        (mkChore 1 .VISIBLE .nothing none .null) none < 0 ∧
    0 < choreComparator testEnv wfa99 rcJF1 none := by
  refine ⟨?_, ?_, ?_⟩
  · exact c3_phase_ordering.1 testEnv
      [⟨.VISIBLE, .task ⟨0, none⟩, none, .null⟩, ⟨.VISIBLE, .task ⟨1, none⟩, none, .null⟩]
      [] wfa99 none 1 2 (by decide) (by decide) (by decide)
  · exact c3_phase_ordering.2.1 testEnv (mkChore 0 .TASK .nothing none .null)
      (mkChore 1 .VISIBLE .nothing none .null) none (by decide) (by decide)
  · exact c3_phase_ordering.2.2.2.2 testEnv wfa99 rcJF1 none (by decide) (by decide)

end Qwik
